import Mathlib

/-!
Verification of the image-description app's request lifecycle tracker
(`utils/request_manager.py`), storage client (`utils/oracle_storage.py`),
description client (`utils/llm_service.py`) and orchestrator (`app.py`),
as a shallow embedding: Python dicts become association lists, the
filesystem a list of existing paths, the object-store bucket a list of
(name, bytes) pairs, and each external call's outcome an explicit
environment value.
-/

namespace DescribeApp

/-! ## Association-list store (Python `dict` keyed by request id) -/

/-- Look a key up in an association list (Python `d[k]` / `k in d`). -/
def lookupKV {α : Type} : List (String × α) → String → Option α
  | [], _ => none
  | (k', v) :: t, k => if k' = k then some v else lookupKV t k

/-- Python `d[k] = v`: overwrite in place, or append a fresh binding. -/
def setKV {α : Type} : List (String × α) → String → α → List (String × α)
  | [], k, v => [(k, v)]
  | (k', v') :: t, k, v => if k' = k then (k, v) :: t else (k', v') :: setKV t k v

theorem lookupKV_setKV_self {α : Type} (m : List (String × α)) (k : String) (v : α) :
    lookupKV (setKV m k v) k = some v := by
  induction m with
  | nil => simp [setKV, lookupKV]
  | cons h t ih =>
    obtain ⟨k', v'⟩ := h
    by_cases hk : k' = k
    · simp [setKV, lookupKV, hk]
    · simp [setKV, lookupKV, hk, ih]

theorem lookupKV_setKV_other {α : Type} (m : List (String × α)) (k k' : String) (v : α)
    (h : k' ≠ k) : lookupKV (setKV m k v) k' = lookupKV m k' := by
  have h' : ¬(k = k') := fun hc => h hc.symm
  induction m with
  | nil => simp [setKV, lookupKV, h']
  | cons hd t ih =>
    obtain ⟨k0, v0⟩ := hd
    by_cases hk : k0 = k
    · subst hk
      simp [setKV, lookupKV, h']
    · by_cases hk' : k0 = k'
      · simp [setKV, lookupKV, hk, hk', h]
      · simp [setKV, lookupKV, hk, hk', ih]

/-! ## The tracker's record (`RequestManager.create_request`'s dict) -/

/-- One request record, with the exact fields `create_request` allocates.
`Option` models Python `None` for the optional fields. -/
structure RequestRecord where
  status : String
  temp_path : Option String
  cloud_path : Option String
  llm_description : Option String
  user_feedback : Option Bool
  user_note : Option String
deriving DecidableEq, Repr

/-- The fresh record allocated by `create_request`. -/
def initRecord : RequestRecord :=
  { status := "created", temp_path := none, cloud_path := none,
    llm_description := none, user_feedback := none, user_note := none }

/-- The tracker's state: `self.requests`, a dict from id to record. -/
abbrev RM : Type := List (String × RequestRecord)

/-- A `**kwargs` partial update over the record's six fields: each field is
present (with its new value) or absent, as in `update_request(id, **kwargs)`. -/
structure FieldUpdates where
  status : Option String := none
  temp_path : Option (Option String) := none
  cloud_path : Option (Option String) := none
  llm_description : Option (Option String) := none
  user_feedback : Option (Option Bool) := none
  user_note : Option (Option String) := none

/-- Apply the present fields of a `**kwargs` update to a record
(the loop `for key, value in kwargs.items(): request[key] = value`). -/
def applyUpdates (u : FieldUpdates) (r : RequestRecord) : RequestRecord :=
  { status := u.status.getD r.status,
    temp_path := u.temp_path.getD r.temp_path,
    cloud_path := u.cloud_path.getD r.cloud_path,
    llm_description := u.llm_description.getD r.llm_description,
    user_feedback := u.user_feedback.getD r.user_feedback,
    user_note := u.user_note.getD r.user_note }

/-- `RequestManager.create_request`, with the generated `uuid4` string
supplied by the environment: allocates the fresh record under that id. -/
def createRequest (rm : RM) (rid : String) : RM :=
  setKV rm rid initRecord

/-- `RequestManager.update_request`: `False` on an unknown id, otherwise
apply the partial update and return `True`. -/
def updateRequest (rm : RM) (rid : String) (u : FieldUpdates) : RM × Bool :=
  match lookupKV rm rid with
  | none => (rm, false)
  | some r => (setKV rm rid (applyUpdates u r), true)

/-- `RequestManager.get_request`: the record, or `None` if unknown. -/
def getRequest (rm : RM) (rid : String) : Option RequestRecord :=
  lookupKV rm rid

/-- The local filesystem as the set of existing paths. -/
abbrev FS : Type := List String

/-- `os.remove(p)`: the path `p` no longer exists afterwards. -/
def removeFile (fs : FS) (p : String) : FS :=
  fs.filter (fun q => decide (q ≠ p))

/-- `RequestManager.clean_temp_file`: `False` when the id is unknown or
`temp_path` is falsy (`None` or `""`); otherwise remove the file if it
still exists (a missing file is already clean) and return `True`.
The record itself is left untouched. -/
def cleanTempFile (rm : RM) (fs : FS) (rid : String) : RM × FS × Bool :=
  match getRequest rm rid with
  | none => (rm, fs, false)
  | some r =>
    match r.temp_path with
    | none => (rm, fs, false)
    | some p =>
      if p = "" then (rm, fs, false)
      else if p ∈ fs then (rm, removeFile fs p, true)
      else (rm, fs, true)

/-- `create_request` iterated: call `n` of the run allocates id `gen n`
(`gen` stands for the `uuid.uuid4()` draws of the process lifetime). -/
def runCreates (gen : Nat → String) : Nat → RM → RM
  | 0, rm => rm
  | n + 1, rm => createRequest (runCreates gen n rm) (gen n)

/-! ## JSON values and `json.dumps` (`oracle_storage.save_metadata`)

The metadata dict built by `save_feedback` only ever holds strings,
booleans and `None`, and is flat, so `JVal` covers exactly that fragment
of JSON. `dumpsObj` follows `json.dumps` with its defaults: separators
`", "` and `": "`, and `ensure_ascii=True` escaping (short escapes for
the common controls, `\uXXXX` otherwise, surrogate pairs above the BMP). -/

/-- A JSON value of the metadata fragment: `None`, `bool` or `str`. -/
inductive JVal where
  | jnull
  | jbool (b : Bool)
  | jstr (s : String)
deriving DecidableEq, Repr

/-- Lower-case hex digit for `n < 16`. -/
def toHexLower (n : Nat) : Char :=
  if n < 10 then Char.ofNat (48 + n) else Char.ofNat (97 + n - 10)

/-- The four hex digits of `n < 65536`, most significant first. -/
def hex4Chars (n : Nat) : List Char :=
  [toHexLower (n / 4096 % 16), toHexLower (n / 256 % 16),
   toHexLower (n / 16 % 16), toHexLower (n % 16)]

/-- One character as `json.dumps` (with `ensure_ascii=True`) emits it:
short escapes for `"` `\` and the named controls, printable ASCII
verbatim, `\uXXXX` for the rest, and a surrogate pair beyond `0xFFFF`. -/
def escChar (c : Char) : List Char :=
  if c = '"' then ['\\', '"']
  else if c = '\\' then ['\\', '\\']
  else if c = '\n' then ['\\', 'n']
  else if c = '\r' then ['\\', 'r']
  else if c = '\t' then ['\\', 't']
  else if c.toNat = 8 then ['\\', 'b']
  else if c.toNat = 12 then ['\\', 'f']
  else if 32 ≤ c.toNat ∧ c.toNat ≤ 126 then [c]
  else if c.toNat < 65536 then '\\' :: 'u' :: hex4Chars c.toNat
  else '\\' :: 'u' :: hex4Chars (55296 + (c.toNat - 65536) / 1024)
       ++ '\\' :: 'u' :: hex4Chars (56320 + (c.toNat - 65536) % 1024)

/-- A character list, JSON-escaped characterwise. -/
def escList : List Char → List Char
  | [] => []
  | c :: cs => escChar c ++ escList cs

/-- `json.dumps` of one value. -/
def dumpVal : JVal → List Char
  | .jnull => ['n', 'u', 'l', 'l']
  | .jbool true => ['t', 'r', 'u', 'e']
  | .jbool false => ['f', 'a', 'l', 's', 'e']
  | .jstr s => '"' :: (escList s.data ++ ['"'])

/-- One `"key": value` member, continued by `tail`. -/
def dumpEntry (k : String) (v : JVal) (tail : List Char) : List Char :=
  '"' :: escList k.data ++ '"' :: ':' :: ' ' :: (dumpVal v ++ tail)

/-- The members of an object, `", "`-separated, continued by `tail`. -/
def dumpMembersT : List (String × JVal) → List Char → List Char
  | [], tail => tail
  | [(k, v)], tail => dumpEntry k v tail
  | (k, v) :: m :: ms, tail => dumpEntry k v (',' :: ' ' :: dumpMembersT (m :: ms) tail)

/-- `json.dumps` of a flat object with `json.dumps`'s default separators. -/
def dumpsObj (ms : List (String × JVal)) : String :=
  ('\x7b' :: dumpMembersT ms ['\x7d']).asString

/-! ## A JSON reader for the same fragment (what `json.loads` recovers) -/

/-- The value of one hex digit. -/
def hexDigVal (c : Char) : Option Nat :=
  if 48 ≤ c.toNat ∧ c.toNat ≤ 57 then some (c.toNat - 48)
  else if 97 ≤ c.toNat ∧ c.toNat ≤ 102 then some (c.toNat - 97 + 10)
  else if 65 ≤ c.toNat ∧ c.toNat ≤ 70 then some (c.toNat - 65 + 10)
  else none

/-- The value of a four-hex-digit escape. -/
def hexQuad (a b c d : Char) : Option Nat :=
  match hexDigVal a, hexDigVal b, hexDigVal c, hexDigVal d with
  | some x, some y, some z, some w => some (((x * 16 + y) * 16 + z) * 16 + w)
  | _, _, _, _ => none

/-- The single-character escapes JSON accepts after a backslash: the two
self-representing ones, and the named controls. -/
def escSingle (e : Char) : Option Char :=
  if e = '"' ∨ e = '/' then some e
  else if e = '\\' then some '\\'
  else if e = 'n' then some '\n'
  else if e = 'r' then some '\r'
  else if e = 't' then some '\t'
  else if e = 'b' then some (Char.ofNat 8)
  else if e = 'f' then some (Char.ofNat 12)
  else none

/-- Read a string body up to its closing quote, undoing escapes
(including surrogate pairs); `none` on a malformed input. -/
def parseStrBody (acc : List Char) : List Char → Option (String × List Char)
  | '"' :: rs => some (acc.reverse.asString, rs)
  | '\\' :: 'u' :: q1 :: q2 :: q3 :: q4 :: rs =>
    match hexQuad q1 q2 q3 q4 with
    | none => none
    | some n =>
      if 55296 ≤ n ∧ n ≤ 56319 then
        match rs with
        | '\\' :: 'u' :: p1 :: p2 :: p3 :: p4 :: rs2 =>
          match hexQuad p1 p2 p3 p4 with
          | none => none
          | some m =>
            if 56320 ≤ m ∧ m ≤ 57343 then
              parseStrBody (Char.ofNat (65536 + (n - 55296) * 1024 + (m - 56320)) :: acc) rs2
            else none
        | _ => none
      else if 56320 ≤ n ∧ n ≤ 57343 then none
      else parseStrBody (Char.ofNat n :: acc) rs
  | '\\' :: e :: rs =>
    match escSingle e with
    | some ch => parseStrBody (ch :: acc) rs
    | none => none
  | c :: rs => parseStrBody (c :: acc) rs
  | [] => none

/-- Drop blanks (the only whitespace `json.dumps` emits). -/
def skipSp : List Char → List Char
  | ' ' :: cs => skipSp cs
  | cs => cs

/-- Read one value of the fragment: a string, `null`, `true` or `false`. -/
def parseVal : List Char → Option (JVal × List Char)
  | '"' :: rest => (parseStrBody [] rest).map (fun p => (.jstr p.1, p.2))
  | 'n' :: 'u' :: 'l' :: 'l' :: rest => some (.jnull, rest)
  | 't' :: 'r' :: 'u' :: 'e' :: rest => some (.jbool true, rest)
  | 'f' :: 'a' :: 'l' :: 's' :: 'e' :: rest => some (.jbool false, rest)
  | _ => none

/-- Read the members of a non-empty object body up to the closing brace.
`fuel` bounds the member count; the caller supplies the input length. -/
def parseMembers : Nat → List Char → Option (List (String × JVal) × List Char)
  | 0, _ => none
  | fuel + 1, '"' :: rest =>
    match parseStrBody [] rest with
    | none => none
    | some (k, r1) =>
      match skipSp r1 with
      | ':' :: r2 =>
        match parseVal (skipSp r2) with
        | none => none
        | some (v, r3) =>
          match skipSp r3 with
          | ',' :: r4 => (parseMembers fuel (skipSp r4)).map (fun p => ((k, v) :: p.1, p.2))
          | '\x7d' :: r4 => some ([(k, v)], r4)
          | _ => none
      | _ => none
  | _ + 1, _ => none

/-- Read a whole flat JSON object, rejecting trailing garbage. -/
def parseJsonObj (s : String) : Option (List (String × JVal)) :=
  match skipSp s.data with
  | '\x7b' :: rest =>
    match skipSp rest with
    | '\x7d' :: r2 => if skipSp r2 = [] then some [] else none
    | cs =>
      match parseMembers (cs.length + 1) cs with
      | some (ms, r) => if skipSp r = [] then some ms else none
      | none => none
  | _ => none

/-! ## Object storage (`oracle_storage.py`) -/

/-- The remote bucket: object name to stored text. -/
abbrev Bucket : Type := List (String × String)

/-- Python `f"{x}"` on an optional value: `None` prints as `"None"`. -/
def optStr : Option String → String
  | none => "None"
  | some s => s

/-- `OracleCloudStorage.save_metadata` (success path): serialize the
metadata with `json.dumps` and put it under `"{object_name}.metadata.json"`
in the same bucket. -/
def saveMetadata (bucket : Bucket) (objectName : String) (metadata : List (String × JVal)) :
    Bucket :=
  setKV bucket (objectName ++ ".metadata.json") (dumpsObj metadata)

/-! ## Description service client (`llm_service.py`) -/

/-- `LLMService.__init__`: endpoint URL and API key from the environment,
with the source's defaults. This is the whole construction surface — the
constructor takes no prompt parameters. -/
structure LLMService where
  api_url : String
  api_key : String
deriving DecidableEq, Repr

/-- `LLMService()` reading `LLM_API_URL` / `LLM_API_KEY` from `os.getenv`. -/
def LLMService.ofEnv (envUrl envKey : Option String) : LLMService :=
  { api_url := envUrl.getD "https://api.example.com/analyze",
    api_key := envKey.getD "" }

/-- The fixed analysis instruction hardcoded in `analyze_image`. -/
def fixedPromptText : String :=
  "Describe the uploaded image in full detail, applying your expertise as a highly scrupulous image analysis agent. Carefully observe and report every visible element, no matter how small, and provide a thorough, context-aware description. Analyze the relationships, interactions, and possible intentions of objects and subjects in the image. Ensure your description is precise, comprehensive, and avoids assumptions not supported by the image content."

/-- The fixed system persona hardcoded in `analyze_image`. -/
def fixedSystemPromptText : String :=
  "You are an expert image analysis agent. Your task is to provide extremely detailed, accurate, and context-aware descriptions of images. You never miss any detail, no matter how small, and you always strive to understand and explain the context, relationships, and concepts present in the image. Your analysis should be thorough, objective, and insightful, covering not only visible objects but also their arrangement, interactions, possible intentions, emotions, and any relevant background information. Always avoid assumptions not supported by the image, and ensure your description is clear, precise, and comprehensive."

/-- One part of the multipart form: a text field, or the image file part. -/
inductive FormValue where
  | text (s : String)
  | filePart (filename : String) (contentType : String) (bytes : String)
deriving DecidableEq, Repr

/-- `os.path.basename` of a POSIX path. -/
def basename (p : String) : String :=
  (p.splitOn "/").getLastD p

/-- The multipart request `analyze_image` posts: form fields, the
`X-API-Key` header, and the target URL. -/
structure DescribeRequest where
  url : String
  headerApiKey : String
  fields : List (String × FormValue)
deriving DecidableEq, Repr

/-- The request body `analyze_image` builds, exactly in source order. -/
def LLMService.buildAnalyzeRequest (svc : LLMService) (imagePath : String)
    (imageBytes : String) : DescribeRequest :=
  { url := svc.api_url,
    headerApiKey := svc.api_key,
    fields := [("prompt", .text fixedPromptText),
               ("system_prompt", .text fixedSystemPromptText),
               ("max_tokens", .text "4000"),
               ("temperature", .text "0.5"),
               ("images", .filePart (basename imagePath) "image/png" imageBytes)] }

/-- What the posted request came back as: a network-level failure
(exception) or an HTTP response with a status and a JSON object body. -/
inductive HttpOutcome where
  | netFail
  | response (status : Nat) (body : List (String × String))

/-- The response handling of `analyze_image`: `None` on an exception or a
non-200 status, else `result.get('output', '')`. -/
def LLMService.analyzeImage (_svc : LLMService) (outcome : HttpOutcome) : Option String :=
  match outcome with
  | .netFail => none
  | .response status body =>
    if status = 200 then some ((lookupKV body "output").getD "") else none

/-! ## Orchestrator (`app.py`) -/

/-- The mutable world `app.py` acts on: the tracker's dict, the local
temp directory's files, and the remote bucket. -/
structure World where
  rm : RM
  fs : FS
  bucket : Bucket

/-- The environment of one `process_image` run: the `uuid4` draw, the
timestamp, and the outcomes of the two external calls. -/
structure PIEnv where
  freshId : String
  timestamp : String
  uploadOk : Bool
  llm : HttpOutcome

/-- `process_image`: save the image to a temp file, upload it, describe
it, advancing the record at each successful step; any failure returns a
user-facing message with the record left at its last status. -/
def processImage (svc : LLMService) (tempDir : String) (env : PIEnv) (w : World)
    (image : Option String) : World × Option String × String :=
  match image with
  | none => (w, none, "Please upload an image or take a photo.")
  | some img =>
    let rid := env.freshId
    let rm1 := createRequest w.rm rid
    let filename := env.timestamp ++ "_" ++ rid ++ ".jpg"
    let tempPath := tempDir ++ "/" ++ filename
    let fs1 := tempPath :: w.fs
    let rm2 := (updateRequest rm1 rid
      { status := some "image_received", temp_path := some (some tempPath) }).1
    if env.uploadOk then
      let bucket1 := setKV w.bucket filename img
      let rm3 := (updateRequest rm2 rid
        { status := some "uploaded_to_cloud", cloud_path := some (some filename) }).1
      match svc.analyzeImage env.llm with
      | none => (⟨rm3, fs1, bucket1⟩, none, "Failed to analyze image.")
      | some desc =>
        if desc = "" then (⟨rm3, fs1, bucket1⟩, none, "Failed to analyze image.")
        else
          let rm4 := (updateRequest rm3 rid
            { status := some "analyzed", llm_description := some (some desc) }).1
          (⟨rm4, fs1, bucket1⟩, some rid, desc)
    else
      (⟨rm2, fs1, w.bucket⟩, none, "Failed to upload image to cloud storage.")

/-- The environment of one `save_feedback` run: the metadata timestamp
and whether the remote metadata write succeeds. -/
structure FBEnv where
  timestamp : String
  metadataOk : Bool

/-- The metadata dict `save_feedback` builds (`description` is the
record's `llm_description`, `None` becoming JSON `null`). -/
def metadataObj (ts : String) (desc : Option String) (approved : Bool) (note : String) :
    List (String × JVal) :=
  [("timestamp", .jstr ts),
   ("description", match desc with | none => .jnull | some d => .jstr d),
   ("approved", .jbool approved),
   ("note", .jstr note)]

/-- `save_feedback`: record the feedback, persist the metadata next to the
image, then clean the temp file and complete the record. -/
def saveFeedback (env : FBEnv) (w : World) (rid : String) (approved : Bool)
    (note : String) : World × String :=
  if rid = "" then (w, "No active request. Please upload an image first.")
  else
    match getRequest w.rm rid with
    | none => (w, "Invalid request ID.")
    | some _ =>
      let rm1 := (updateRequest w.rm rid
        { status := some "feedback_received", user_feedback := some (some approved),
          user_note := some (some note) }).1
      match getRequest rm1 rid with
      | none => (⟨rm1, w.fs, w.bucket⟩, "Invalid request ID.")
      | some r =>
        if env.metadataOk then
          let bucket1 := saveMetadata w.bucket (optStr r.cloud_path)
            (metadataObj env.timestamp r.llm_description approved note)
          let c := cleanTempFile rm1 w.fs rid
          let rm2 := (updateRequest c.1 rid { status := some "completed" }).1
          (⟨rm2, c.2.1, bucket1⟩,
           if approved then "Thank you for your feedback!"
           else "Thank you for your feedback. We'll improve our descriptions.")
        else
          (⟨rm1, w.fs, w.bucket⟩, "Failed to save feedback to cloud storage.")

/-- Substring test used to state the user-message claims. -/
def containsSub (hay needle : String) : Bool :=
  (List.range (hay.data.length + 1)).any (fun i => needle.data.isPrefixOf (hay.data.drop i))

/-- ASCII lower-casing of one character. -/
def lowerChar (c : Char) : Char :=
  if 65 ≤ c.toNat ∧ c.toNat ≤ 90 then Char.ofNat (c.toNat + 32) else c

/-- ASCII lower-casing of a string, to compare a user message with the
spec's phrasing regardless of letter case. -/
def lowerStr (s : String) : String :=
  (s.data.map lowerChar).asString

/-- The tracker snapshots a `process_image` run passes through, oldest
first (one entry per mutation of the tracker). -/
def processImageRMTrace (svc : LLMService) (tempDir : String) (env : PIEnv) (w : World)
    (image : Option String) : List RM :=
  match image with
  | none => [w.rm]
  | some _ =>
    let rid := env.freshId
    let rm1 := createRequest w.rm rid
    let filename := env.timestamp ++ "_" ++ rid ++ ".jpg"
    let tempPath := tempDir ++ "/" ++ filename
    let rm2 := (updateRequest rm1 rid
      { status := some "image_received", temp_path := some (some tempPath) }).1
    if env.uploadOk then
      let rm3 := (updateRequest rm2 rid
        { status := some "uploaded_to_cloud", cloud_path := some (some filename) }).1
      match svc.analyzeImage env.llm with
      | none => [w.rm, rm1, rm2, rm3]
      | some desc =>
        if desc = "" then [w.rm, rm1, rm2, rm3]
        else
          let rm4 := (updateRequest rm3 rid
            { status := some "analyzed", llm_description := some (some desc) }).1
          [w.rm, rm1, rm2, rm3, rm4]
    else [w.rm, rm1, rm2]

/-- The tracker snapshots of a `save_feedback` run, oldest first. -/
def saveFeedbackRMTrace (env : FBEnv) (w : World) (rid : String) (approved : Bool)
    (note : String) : List RM :=
  if rid = "" then [w.rm]
  else
    match getRequest w.rm rid with
    | none => [w.rm]
    | some _ =>
      let rm1 := (updateRequest w.rm rid
        { status := some "feedback_received", user_feedback := some (some approved),
          user_note := some (some note) }).1
      if env.metadataOk then
        let c := cleanTempFile rm1 w.fs rid
        let rm2 := (updateRequest c.1 rid { status := some "completed" }).1
        [w.rm, rm1, c.1, rm2]
      else [w.rm, rm1]

/-- One tracker step preserves every already-set `cloud_path` and
`llm_description`: the write-once relation between snapshots. -/
def preservesWriteOnce (rma rmb : RM) : Prop :=
  ∀ (rid : String) (r : RequestRecord), getRequest rma rid = some r →
    ∃ r', getRequest rmb rid = some r'
      ∧ (∀ v, r.cloud_path = some v → r'.cloud_path = some v)
      ∧ (∀ v, r.llm_description = some v → r'.llm_description = some v)

theorem cleanTempFile_rm_eq (rm : RM) (fs : FS) (rid : String) :
    (cleanTempFile rm fs rid).1 = rm := by
  rcases hg : getRequest rm rid with _ | r
  · simp [cleanTempFile, hg]
  · rcases htp : r.temp_path with _ | p
    · simp [cleanTempFile, hg, htp]
    · by_cases hp : p = "" <;> by_cases hm : p ∈ fs <;> simp [cleanTempFile, hg, htp, hp, hm]

theorem not_mem_removeFile_self (fs : FS) (p : String) : p ∉ removeFile fs p := by
  simp [removeFile, List.mem_filter]

/-! ## Round-trip lemmas for the `json.dumps` model -/

theorem asString_data (s : String) : s.data.asString = s := rfl

theorem char_valid_range (c : Char) :
    c.toNat < 55296 ∨ (57343 < c.toNat ∧ c.toNat < 1114112) := by
  have h := c.valid
  simp only [UInt32.isValidChar, Nat.isValidChar, Char.toNat] at h ⊢
  omega

theorem hexDigVal_toHexLower (k : Nat) (h : k < 16) : hexDigVal (toHexLower k) = some k := by
  interval_cases k <;> decide

theorem hexQuad_hex4Chars (n : Nat) (h : n < 65536) :
    hexQuad (toHexLower (n / 4096 % 16)) (toHexLower (n / 256 % 16))
      (toHexLower (n / 16 % 16)) (toHexLower (n % 16)) = some n := by
  have h1 := hexDigVal_toHexLower (n / 4096 % 16) (Nat.mod_lt _ (by omega))
  have h2 := hexDigVal_toHexLower (n / 256 % 16) (Nat.mod_lt _ (by omega))
  have h3 := hexDigVal_toHexLower (n / 16 % 16) (Nat.mod_lt _ (by omega))
  have h4 := hexDigVal_toHexLower (n % 16) (Nat.mod_lt _ (by omega))
  simp only [hexQuad, h1, h2, h3, h4, Option.some.injEq]
  omega

set_option maxHeartbeats 1000000 in
theorem parseStrBody_u (acc : List Char) (q1 q2 q3 q4 : Char) (rs : List Char) (n : Nat)
    (hq : hexQuad q1 q2 q3 q4 = some n) (hlo : ¬(55296 ≤ n ∧ n ≤ 56319))
    (hhi : ¬(56320 ≤ n ∧ n ≤ 57343)) :
    parseStrBody acc ('\\' :: 'u' :: q1 :: q2 :: q3 :: q4 :: rs)
      = parseStrBody (Char.ofNat n :: acc) rs := by
  simp [parseStrBody, hq, hlo, hhi]

set_option maxHeartbeats 1000000 in
theorem parseStrBody_u2 (acc : List Char) (q1 q2 q3 q4 p1 p2 p3 p4 : Char)
    (rs : List Char) (n m : Nat)
    (hq1 : hexQuad q1 q2 q3 q4 = some n) (hn : 55296 ≤ n ∧ n ≤ 56319)
    (hq2 : hexQuad p1 p2 p3 p4 = some m) (hm : 56320 ≤ m ∧ m ≤ 57343) :
    parseStrBody acc
        ('\\' :: 'u' :: q1 :: q2 :: q3 :: q4 :: '\\' :: 'u' :: p1 :: p2 :: p3 :: p4 :: rs)
      = parseStrBody (Char.ofNat (65536 + (n - 55296) * 1024 + (m - 56320)) :: acc) rs := by
  simp [parseStrBody, hq1, hn, hq2, hm]

set_option maxHeartbeats 1000000 in
theorem parseStrBody_escChar (c : Char) (acc rest : List Char) :
    parseStrBody acc (escChar c ++ rest) = parseStrBody (c :: acc) rest := by
  have hval := char_valid_range c
  have hofn := Char.ofNat_toNat c
  unfold escChar
  split_ifs with h1 h2 h3 h4 h5 h6 h7 h8 h9
  · subst h1; simp [parseStrBody, escSingle]
  · subst h2; simp [parseStrBody, escSingle]
  · subst h3; simp [parseStrBody, escSingle]
  · subst h4; simp [parseStrBody, escSingle]
  · subst h5; simp [parseStrBody, escSingle]
  · have hc : Char.ofNat 8 = c := by rw [← h6]; exact hofn
    simp [parseStrBody, escSingle]
    rw [hc]
  · have hc : Char.ofNat 12 = c := by rw [← h7]; exact hofn
    simp [parseStrBody, escSingle]
    rw [hc]
  · rw [parseStrBody.eq_def]
    simp [h1, h2]
  · simp only [hex4Chars, List.cons_append, List.nil_append]
    rw [parseStrBody_u acc _ _ _ _ rest c.toNat (hexQuad_hex4Chars c.toNat h9)
      (by omega) (by omega), hofn]
  · have hlt : c.toNat < 1114112 := by omega
    have hge : 65536 ≤ c.toNat := by omega
    simp only [hex4Chars, List.cons_append, List.nil_append, List.append_assoc]
    rw [parseStrBody_u2 acc _ _ _ _ _ _ _ _ rest
      (55296 + (c.toNat - 65536) / 1024) (56320 + (c.toNat - 65536) % 1024)
      (hexQuad_hex4Chars _ (by omega)) (by omega)
      (hexQuad_hex4Chars _ (by omega)) (by omega)]
    have harith : 65536 + (55296 + (c.toNat - 65536) / 1024 - 55296) * 1024
        + (56320 + (c.toNat - 65536) % 1024 - 56320) = c.toNat := by omega
    rw [harith, hofn]

set_option maxHeartbeats 1000000 in
theorem parseStrBody_escList (s : List Char) : ∀ (acc rest : List Char),
    parseStrBody acc (escList s ++ '"' :: rest) = some ((acc.reverse ++ s).asString, rest) := by
  induction s with
  | nil => intro acc rest; simp [escList, parseStrBody]
  | cons c cs ih =>
    intro acc rest
    rw [escList, List.append_assoc, parseStrBody_escChar, ih]
    simp

set_option maxHeartbeats 1000000 in
theorem parseVal_dumpVal (v : JVal) (rest : List Char) :
    parseVal (dumpVal v ++ rest) = some (v, rest) := by
  cases v with
  | jnull => rfl
  | jbool b => cases b <;> rfl
  | jstr s =>
    show parseVal ('"' :: ((escList s.data ++ ['"']) ++ rest)) = some (.jstr s, rest)
    rw [List.append_assoc]
    simp [parseVal, parseStrBody_escList, asString_data]

theorem skipSp_cons_of_ne (c : Char) (cs : List Char) (h : c ≠ ' ') :
    skipSp (c :: cs) = c :: cs := by
  rw [skipSp.eq_def]
  simp [h]

theorem skipSp_space (cs : List Char) : skipSp (' ' :: cs) = skipSp cs := rfl

theorem skipSp_nil : skipSp [] = [] := rfl

theorem skipSp_dumpVal (v : JVal) (rest : List Char) :
    skipSp (dumpVal v ++ rest) = dumpVal v ++ rest := by
  cases v with
  | jnull => exact skipSp_cons_of_ne _ _ (by decide)
  | jbool b => cases b <;> exact skipSp_cons_of_ne _ _ (by decide)
  | jstr s => exact skipSp_cons_of_ne _ _ (by decide)

theorem dumpMembersT_cons_eq (x : String × JVal) (xs : List (String × JVal))
    (tail : List Char) :
    ∃ t, dumpMembersT (x :: xs) tail = '"' :: t := by
  obtain ⟨k, v⟩ := x
  cases xs with
  | nil => exact ⟨_, rfl⟩
  | cons m ms => exact ⟨_, rfl⟩

theorem skipSp_dumpMembersT (x : String × JVal) (xs : List (String × JVal))
    (tail : List Char) :
    skipSp (dumpMembersT (x :: xs) tail) = dumpMembersT (x :: xs) tail := by
  obtain ⟨t, ht⟩ := dumpMembersT_cons_eq x xs tail
  rw [ht]
  exact skipSp_cons_of_ne _ _ (by decide)

theorem length_le_dumpMembersT :
    ∀ (ms : List (String × JVal)) (tail : List Char),
      ms.length ≤ (dumpMembersT ms tail).length
  | [], tail => by simp [dumpMembersT]
  | [(k, v)], tail => by simp [dumpMembersT, dumpEntry]
  | (k, v) :: m :: ms, tail => by
    have h := length_le_dumpMembersT (m :: ms) tail
    simp only [dumpMembersT, dumpEntry, List.length_append, List.length_cons]
    simp only [List.length_cons] at h
    omega

set_option maxHeartbeats 1000000 in
theorem parseMembers_dumpMembersT (ms : List (String × JVal)) (hms : ms ≠ []) :
    ∀ (fuel : Nat) (rest : List Char), ms.length ≤ fuel →
      parseMembers fuel (dumpMembersT ms ('\x7d' :: rest)) = some (ms, rest) := by
  induction ms with
  | nil => exact absurd rfl hms
  | cons hd tl ih =>
    intro fuel rest hlen
    obtain ⟨k, v⟩ := hd
    obtain ⟨f, rfl⟩ : ∃ f, fuel = f + 1 := by
      cases fuel
      · simp at hlen
      · exact ⟨_, rfl⟩
    have hstr1 := parseStrBody_escList k.data []
      (':' :: ' ' :: (dumpVal v ++ '\x7d' :: rest))
    have hstr2 := parseStrBody_escList k.data []
      (':' :: ' ' :: (dumpVal v ++ ',' :: ' ' :: dumpMembersT tl ('\x7d' :: rest)))
    simp only [List.reverse_nil, List.nil_append] at hstr1 hstr2
    cases tl with
    | nil =>
      show parseMembers (f + 1)
        ('"' :: (escList k.data ++ '"' :: ':' :: ' ' :: (dumpVal v ++ '\x7d' :: rest)))
        = some ([(k, v)], rest)
      simp [parseMembers, hstr1, skipSp_cons_of_ne, skipSp_space, skipSp_dumpVal,
        parseVal_dumpVal, asString_data]
    | cons m ms2 =>
      have hrec := ih (by simp) f rest (by simp at hlen ⊢; omega)
      show parseMembers (f + 1)
        ('"' :: (escList k.data ++ '"' :: ':' :: ' ' ::
          (dumpVal v ++ ',' :: ' ' :: dumpMembersT (m :: ms2) ('\x7d' :: rest))))
        = some ((k, v) :: m :: ms2, rest)
      simp [parseMembers, hstr2, skipSp_cons_of_ne, skipSp_space, skipSp_dumpVal,
        parseVal_dumpVal, skipSp_dumpMembersT, hrec, asString_data]

set_option maxHeartbeats 1000000 in
theorem parseJsonObj_dumpsObj (ms : List (String × JVal)) (hms : ms ≠ []) :
    parseJsonObj (dumpsObj ms) = some ms := by
  obtain ⟨x, xs, rfl⟩ : ∃ x xs, ms = x :: xs := by
    cases ms
    · exact absurd rfl hms
    · exact ⟨_, _, rfl⟩
  have hdata : (dumpsObj (x :: xs)).data = '\x7b' :: dumpMembersT (x :: xs) ['\x7d'] := rfl
  obtain ⟨t, ht⟩ := dumpMembersT_cons_eq x xs ['\x7d']
  have hfuel : (x :: xs).length ≤ ('"' :: t).length + 1 := by
    have h := length_le_dumpMembersT (x :: xs) ['\x7d']
    rw [ht] at h
    exact Nat.le_succ_of_le h
  have hmem : parseMembers (('"' :: t).length + 1) ('"' :: t) = some (x :: xs, []) := by
    rw [ht.symm] at hfuel ⊢
    exact parseMembers_dumpMembersT (x :: xs) (by simp) _ [] hfuel
  simp only [List.length_cons] at hmem
  rw [parseJsonObj, hdata, skipSp_cons_of_ne '\x7b' _ (by decide)]
  simp [ht, skipSp_cons_of_ne '"' _ (by decide), hmem, skipSp_nil]

/-! ## Snapshot lemmas for the tracker operations -/

theorem getRequest_createRequest_self (rm : RM) (rid : String) :
    getRequest (createRequest rm rid) rid = some initRecord :=
  lookupKV_setKV_self rm rid initRecord

theorem getRequest_createRequest_other (rm : RM) (rid rid' : String) (h : rid' ≠ rid) :
    getRequest (createRequest rm rid) rid' = getRequest rm rid' :=
  lookupKV_setKV_other rm rid rid' initRecord h

theorem getRequest_updateRequest_self (rm : RM) (rid : String) (u : FieldUpdates)
    (r : RequestRecord) (h : getRequest rm rid = some r) :
    getRequest (updateRequest rm rid u).1 rid = some (applyUpdates u r) := by
  have h' : lookupKV rm rid = some r := h
  simp [updateRequest, getRequest, h', lookupKV_setKV_self]

theorem getRequest_updateRequest_other (rm : RM) (rid : String) (u : FieldUpdates)
    (rid' : String) (h : rid' ≠ rid) :
    getRequest (updateRequest rm rid u).1 rid' = getRequest rm rid' := by
  rcases hl : lookupKV rm rid with _ | r
  · simp [updateRequest, hl]
  · simp [updateRequest, hl, getRequest, lookupKV_setKV_other _ _ _ _ h]

theorem preservesWriteOnce_refl (rm : RM) : preservesWriteOnce rm rm :=
  fun _ r hr => ⟨r, hr, fun _ hv => hv, fun _ hv => hv⟩

theorem preservesWriteOnce_trans (a b c : RM) (hab : preservesWriteOnce a b)
    (hbc : preservesWriteOnce b c) : preservesWriteOnce a c := by
  intro rid r hr
  obtain ⟨r', hr', hc', hd'⟩ := hab rid r hr
  obtain ⟨r'', hr'', hc'', hd''⟩ := hbc rid r' hr'
  exact ⟨r'', hr'', fun v hv => hc'' v (hc' v hv), fun v hv => hd'' v (hd' v hv)⟩

theorem preservesWriteOnce_create (rm : RM) (rid : String)
    (h : getRequest rm rid = none) : preservesWriteOnce rm (createRequest rm rid) := by
  intro rid' r hr
  by_cases he : rid' = rid
  · rw [he, h] at hr
    exact absurd hr (by simp)
  · exact ⟨r, by rw [getRequest_createRequest_other rm rid rid' he]; exact hr,
      fun _ hv => hv, fun _ hv => hv⟩

theorem preservesWriteOnce_update (rm : RM) (rid : String) (u : FieldUpdates)
    (hc : u.cloud_path = none ∨ ∀ r, getRequest rm rid = some r → r.cloud_path = none)
    (hd : u.llm_description = none ∨
      ∀ r, getRequest rm rid = some r → r.llm_description = none) :
    preservesWriteOnce rm (updateRequest rm rid u).1 := by
  intro rid' r hr
  by_cases he : rid' = rid
  · subst he
    refine ⟨applyUpdates u r, getRequest_updateRequest_self rm rid' u r hr, ?_, ?_⟩
    · intro v hv
      rcases hc with hc | hc
      · simp [applyUpdates, hc, hv]
      · exact absurd (hc r hr) (by rw [hv]; simp)
    · intro v hv
      rcases hd with hd | hd
      · simp [applyUpdates, hd, hv]
      · exact absurd (hd r hr) (by rw [hv]; simp)
  · exact ⟨r, by rw [getRequest_updateRequest_other rm rid u rid' he]; exact hr,
      fun _ hv => hv, fun _ hv => hv⟩

end DescribeApp

namespace DescribeApp

/-! ## Claim theorems for the tracker -/

/-- C1 counterexample: on a record whose `temp_path` was never set,
`clean_temp_file` returns `False` (a failure), not the no-op success the
claim asserts: `if not request or not request['temp_path']: return False`. -/
theorem C1_never_set_returns_failure :
    cleanTempFile [("r", initRecord)] [] "r" = ([("r", initRecord)], [], false) := by
  rfl

/-- C1 (amended): for a record whose `temp_path` is set (non-empty),
`clean_temp_file` twice in a row returns success both times and deletes the
file at most once (the second call finds it gone and removes nothing); a
file already missing from disk is treated as already-clean (success, no
change). But on a record whose `temp_path` was never set (`None`), the call
returns `False`, a failure — not the no-op success the claim asserts. -/
theorem C1_clean_temp_file_idempotent :
    (∀ (rm : RM) (fs : FS) (rid : String) (r : RequestRecord) (p : String),
       getRequest rm rid = some r → r.temp_path = some p → p ≠ "" →
       (cleanTempFile rm fs rid).2.2 = true
       ∧ (cleanTempFile (cleanTempFile rm fs rid).1 (cleanTempFile rm fs rid).2.1 rid).2.2 = true
       ∧ p ∉ (cleanTempFile rm fs rid).2.1
       ∧ (cleanTempFile (cleanTempFile rm fs rid).1 (cleanTempFile rm fs rid).2.1 rid).2.1
           = (cleanTempFile rm fs rid).2.1
       ∧ (p ∉ fs → (cleanTempFile rm fs rid).2.1 = fs))
    ∧ (∀ (rm : RM) (fs : FS) (rid : String) (r : RequestRecord),
       getRequest rm rid = some r → r.temp_path = none →
       cleanTempFile rm fs rid = (rm, fs, false)) := by
  constructor
  · intro rm fs rid r p hget htp hne
    by_cases hm : p ∈ fs
    · have h1 : cleanTempFile rm fs rid = (rm, removeFile fs p, true) := by
        simp [cleanTempFile, hget, htp, hne, hm]
      have hnotin := not_mem_removeFile_self fs p
      have h2 : cleanTempFile rm (removeFile fs p) rid = (rm, removeFile fs p, true) := by
        simp [cleanTempFile, hget, htp, hne, hnotin]
      refine ⟨by simp [h1], ?_, ?_, ?_, fun hc => absurd hm hc⟩
      · simp [h1, h2]
      · simp [h1, hnotin]
      · simp [h1, h2]
    · have h1 : cleanTempFile rm fs rid = (rm, fs, true) := by
        simp [cleanTempFile, hget, htp, hne, hm]
      refine ⟨by simp [h1], by simp [h1], by simp [h1, hm], by simp [h1], fun _ => by simp [h1]⟩
  · intro rm fs rid r hget htp
    simp [cleanTempFile, hget, htp]

/-- C1 witness: the amended theorem at a concrete record holding temp path
`"t/x.jpg"` with the file present on disk. -/
theorem C1_clean_temp_file_idempotent_witness :
    (cleanTempFile [("r", { initRecord with temp_path := some "t/x.jpg" })] ["t/x.jpg"] "r").2.2
      = true
    ∧ "t/x.jpg" ∉ (cleanTempFile [("r", { initRecord with temp_path := some "t/x.jpg" })]
        ["t/x.jpg"] "r").2.1 := by
  have h := C1_clean_temp_file_idempotent.1
    [("r", { initRecord with temp_path := some "t/x.jpg" })] ["t/x.jpg"] "r"
    { initRecord with temp_path := some "t/x.jpg" } "t/x.jpg"
    (by rfl) (by rfl) (by decide)
  exact ⟨h.1, h.2.2.1⟩

/-- C2: `update_request` has partial-update semantics — after
`update(id, F)`, every record (the updated one included) agrees with its
prior value on every field absent from `F`. -/
theorem C2_partial_update_frame (rm : RM) (rid : String) (u : FieldUpdates)
    (rid' : String) (r : RequestRecord) (h : getRequest rm rid' = some r) :
    ∃ r', getRequest (updateRequest rm rid u).1 rid' = some r'
      ∧ (u.status = none → r'.status = r.status)
      ∧ (u.temp_path = none → r'.temp_path = r.temp_path)
      ∧ (u.cloud_path = none → r'.cloud_path = r.cloud_path)
      ∧ (u.llm_description = none → r'.llm_description = r.llm_description)
      ∧ (u.user_feedback = none → r'.user_feedback = r.user_feedback)
      ∧ (u.user_note = none → r'.user_note = r.user_note) := by
  rcases hfind : lookupKV rm rid with _ | r0
  · refine ⟨r, ?_, fun _ => rfl, fun _ => rfl, fun _ => rfl, fun _ => rfl, fun _ => rfl,
      fun _ => rfl⟩
    simpa [updateRequest, hfind, getRequest] using h
  · by_cases hr : rid' = rid
    · subst hr
      have hr0 : r0 = r := by
        have := h
        rw [getRequest, hfind] at this
        exact Option.some.inj this
      subst hr0
      refine ⟨applyUpdates u r0, ?_, ?_, ?_, ?_, ?_, ?_, ?_⟩
      · simp [updateRequest, hfind, getRequest, lookupKV_setKV_self]
      all_goals intro hu
      all_goals simp [applyUpdates, hu]
    · refine ⟨r, ?_, fun _ => rfl, fun _ => rfl, fun _ => rfl, fun _ => rfl, fun _ => rfl,
        fun _ => rfl⟩
      rw [updateRequest, hfind]
      simp only [getRequest] at h ⊢
      rw [lookupKV_setKV_other _ _ _ _ hr]
      exact h

/-- C2 witness: updating only the status of a concrete record leaves its
other five fields as they were. -/
theorem C2_partial_update_frame_witness :
    ∃ r', getRequest (updateRequest [("a", initRecord)] "a"
        { status := some "image_received" }).1 "a" = some r'
      ∧ r'.temp_path = initRecord.temp_path := by
  obtain ⟨r', h1, _, h2, _⟩ :=
    C2_partial_update_frame [("a", initRecord)] "a" { status := some "image_received" }
      "a" initRecord (by rfl)
  exact ⟨r', h1, h2 rfl⟩

/-- C3: with the process's `uuid4` draws modelled as an id supply `gen`
that is collision-free over the run, every `create_request` call returns an
id distinct from every other call's, allocates a fresh record in status
`"created"` with all optional fields `None`, and leaves every pre-existing
record untouched. -/
theorem C3_create_unique_and_fresh (gen : Nat → String) (rm : RM) (n : Nat)
    (hinj : ∀ i j, i < n → j < n → gen i = gen j → i = j)
    (hfresh : ∀ i, i < n → getRequest rm (gen i) = none) :
    (∀ i j, i < n → j < n → i ≠ j → gen i ≠ gen j)
    ∧ (∀ i, i < n → getRequest (runCreates gen n rm) (gen i) = some initRecord)
    ∧ (∀ k, (∀ i, i < n → gen i ≠ k) → getRequest (runCreates gen n rm) k = getRequest rm k) := by
  refine ⟨fun i j hi hj hne hc => hne (hinj i j hi hj hc), ?_, ?_⟩
  · induction n with
    | zero => intro i hi; omega
    | succ m ih =>
      intro i hi
      by_cases hlast : gen i = gen m
      · simp [runCreates, createRequest, getRequest, hlast, lookupKV_setKV_self]
      · have him : i < m := by
          rcases Nat.lt_succ_iff_lt_or_eq.mp hi with h | h
          · exact h
          · exact absurd (h ▸ rfl) hlast
        have := ih (fun a b ha hb => hinj a b (Nat.lt_succ_of_lt ha) (Nat.lt_succ_of_lt hb))
          (fun a ha => hfresh a (Nat.lt_succ_of_lt ha)) i him
        simpa [runCreates, createRequest, getRequest,
          lookupKV_setKV_other _ _ _ _ hlast] using this
  · induction n with
    | zero => intro k _; rfl
    | succ m ih =>
      intro k hk
      have hne : gen m ≠ k := hk m (Nat.lt_succ_self m)
      have := ih (fun a b ha hb => hinj a b (Nat.lt_succ_of_lt ha) (Nat.lt_succ_of_lt hb))
        (fun a ha => hfresh a (Nat.lt_succ_of_lt ha))
        k (fun i hi => hk i (Nat.lt_succ_of_lt hi))
      simpa [runCreates, createRequest, getRequest,
        lookupKV_setKV_other _ _ _ _ (fun hc => hne hc.symm)] using this

/-- C3 witness: two creates with distinct ids into an empty tracker yield
two distinct records, each freshly `"created"`. -/
theorem C3_create_unique_and_fresh_witness :
    getRequest (runCreates (fun i => if i = 0 then "id0" else "id1") 2 []) "id0"
      = some initRecord := by
  have h := C3_create_unique_and_fresh (fun i => if i = 0 then "id0" else "id1") [] 2
    (by
      intro i j hi hj hc
      interval_cases i <;> interval_cases j <;> simp_all)
    (fun i _ => rfl)
  simpa using h.2.1 0 (by omega)

/-- C10: a successful `clean_temp_file` never touches the record — the
tracker state is returned unchanged, so `temp_path` is never reset from a
set value to empty, and a subsequent `get_request` still returns the stale
path of the file that no longer exists on disk. -/
theorem C10_clean_keeps_stale_temp_path :
    (∀ (rm : RM) (fs : FS) (rid : String),
       (cleanTempFile rm fs rid).1 = rm
       ∧ getRequest (cleanTempFile rm fs rid).1 rid = getRequest rm rid)
    ∧ (∀ (rm : RM) (fs : FS) (rid : String) (r : RequestRecord) (p : String),
       getRequest rm rid = some r → r.temp_path = some p → p ≠ "" → p ∈ fs →
       getRequest (cleanTempFile rm fs rid).1 rid = some r
       ∧ p ∉ (cleanTempFile rm fs rid).2.1) := by
  constructor
  · intro rm fs rid
    exact ⟨cleanTempFile_rm_eq rm fs rid, by rw [cleanTempFile_rm_eq]⟩
  · intro rm fs rid r p hget htp hne hm
    have h1 : cleanTempFile rm fs rid = (rm, removeFile fs p, true) := by
      simp [cleanTempFile, hget, htp, hne, hm]
    exact ⟨by simp [h1, hget], by simp [h1, not_mem_removeFile_self]⟩

/-- C4: after a `save_feedback` run on a record holding cloud key `K` and a
description, the bucket holds, at object name `K ++ ".metadata.json"`, the
`json.dumps` of exactly the object with keys `timestamp`, `description`,
`approved`, `note` — `approved` a JSON boolean, the rest JSON strings — and
those bytes parse back to exactly that object (round-trip, same keys in the
same order, same value types). -/
theorem C4_metadata_format_roundtrip (env : FBEnv) (w : World) (rid : String)
    (approved : Bool) (note : String) (r : RequestRecord) (K desc : String)
    (hrid : rid ≠ "") (hget : getRequest w.rm rid = some r)
    (hck : r.cloud_path = some K) (hdesc : r.llm_description = some desc)
    (hok : env.metadataOk = true) :
    lookupKV (saveFeedback env w rid approved note).1.bucket (K ++ ".metadata.json")
      = some (dumpsObj (metadataObj env.timestamp (some desc) approved note))
    ∧ parseJsonObj (dumpsObj (metadataObj env.timestamp (some desc) approved note))
      = some [("timestamp", JVal.jstr env.timestamp), ("description", JVal.jstr desc),
              ("approved", JVal.jbool approved), ("note", JVal.jstr note)] := by
  constructor
  · have hupd := getRequest_updateRequest_self w.rm rid
      { status := some "feedback_received", user_feedback := some (some approved),
        user_note := some (some note) } r hget
    have hck1 : (applyUpdates
        { status := some "feedback_received", user_feedback := some (some approved),
          user_note := some (some note) } r).cloud_path = some K := by
      simp [applyUpdates, hck]
    have hdesc1 : (applyUpdates
        { status := some "feedback_received", user_feedback := some (some approved),
          user_note := some (some note) } r).llm_description = some desc := by
      simp [applyUpdates, hdesc]
    simp only [saveFeedback, if_neg hrid, hget, hupd, hok, if_true, saveMetadata,
      hck1, hdesc1, optStr]
    exact lookupKV_setKV_self _ _ _
  · rw [parseJsonObj_dumpsObj (metadataObj env.timestamp (some desc) approved note)
      (by simp [metadataObj])]
    rfl

/-- C4 witness: the theorem at a concrete analyzed record with cloud key
`"k.jpg"` and description `"a cat"`. -/
theorem C4_metadata_format_roundtrip_witness :
    lookupKV (saveFeedback ⟨"2026-01-01T00:00:00", true⟩
        ⟨[("r", { status := "analyzed", temp_path := some "t/x.jpg",
                  cloud_path := some "k.jpg", llm_description := some "a cat",
                  user_feedback := none, user_note := none })], ["t/x.jpg"], []⟩
        "r" true "ok").1.bucket "k.jpg.metadata.json"
      = some (dumpsObj (metadataObj "2026-01-01T00:00:00" (some "a cat") true "ok"))
    ∧ parseJsonObj (dumpsObj (metadataObj "2026-01-01T00:00:00" (some "a cat") true "ok"))
      = some [("timestamp", JVal.jstr "2026-01-01T00:00:00"),
              ("description", JVal.jstr "a cat"),
              ("approved", JVal.jbool true), ("note", JVal.jstr "ok")] :=
  C4_metadata_format_roundtrip ⟨"2026-01-01T00:00:00", true⟩
    ⟨[("r", { status := "analyzed", temp_path := some "t/x.jpg",
              cloud_path := some "k.jpg", llm_description := some "a cat",
              user_feedback := none, user_note := none })], ["t/x.jpg"], []⟩
    "r" true "ok"
    { status := "analyzed", temp_path := some "t/x.jpg",
      cloud_path := some "k.jpg", llm_description := some "a cat",
      user_feedback := none, user_note := none }
    "k.jpg" "a cat" (by decide) (by rfl) (by rfl) (by rfl) (by rfl)

/-- C5: when the upload step fails, `process_image` returns no id and a
message containing `"cloud storage"`, the record sits at status
`"image_received"` with `cloud_path` empty, its temp file is still on disk
(no cleanup before returning) with `temp_path` still set, and the bucket is
untouched. -/
theorem C5_upload_failure (svc : LLMService) (tempDir : String) (env : PIEnv)
    (w : World) (img : String) (h : env.uploadOk = false) :
    containsSub (processImage svc tempDir env w (some img)).2.2 "cloud storage" = true
    ∧ (processImage svc tempDir env w (some img)).2.1 = none
    ∧ getRequest (processImage svc tempDir env w (some img)).1.rm env.freshId
      = some { status := "image_received",
               temp_path := some (tempDir ++ "/" ++ (env.timestamp ++ "_" ++ env.freshId ++ ".jpg")),
               cloud_path := none, llm_description := none,
               user_feedback := none, user_note := none }
    ∧ (processImage svc tempDir env w (some img)).1.fs
      = (tempDir ++ "/" ++ (env.timestamp ++ "_" ++ env.freshId ++ ".jpg")) :: w.fs
    ∧ (processImage svc tempDir env w (some img)).1.bucket = w.bucket := by
  have hred : processImage svc tempDir env w (some img)
      = (⟨(updateRequest (createRequest w.rm env.freshId) env.freshId
            { status := some "image_received",
              temp_path := some (some (tempDir ++ "/" ++ (env.timestamp ++ "_" ++ env.freshId ++ ".jpg"))) }).1,
          (tempDir ++ "/" ++ (env.timestamp ++ "_" ++ env.freshId ++ ".jpg")) :: w.fs,
          w.bucket⟩,
         none, "Failed to upload image to cloud storage.") := by
    simp [processImage, h]
  refine ⟨?_, ?_, ?_, ?_, ?_⟩
  · rw [hred]
    show containsSub "Failed to upload image to cloud storage." "cloud storage" = true
    decide
  · rw [hred]
  · rw [hred]
    have := getRequest_updateRequest_self (createRequest w.rm env.freshId) env.freshId
      { status := some "image_received",
        temp_path := some (some (tempDir ++ "/" ++ (env.timestamp ++ "_" ++ env.freshId ++ ".jpg"))) }
      initRecord (getRequest_createRequest_self w.rm env.freshId)
    rw [this]
    rfl
  · rw [hred]
  · rw [hred]

/-- C5 witness: the theorem at a concrete failing-upload environment. -/
theorem C5_upload_failure_witness :
    containsSub (processImage (LLMService.ofEnv none none) "t"
        ⟨"rid1", "20260101_000000", false, HttpOutcome.netFail⟩
        ⟨[], [], []⟩ (some "IMG")).2.2 "cloud storage" = true
    ∧ (processImage (LLMService.ofEnv none none) "t"
        ⟨"rid1", "20260101_000000", false, HttpOutcome.netFail⟩
        ⟨[], [], []⟩ (some "IMG")).2.1 = none :=
  ⟨(C5_upload_failure (LLMService.ofEnv none none) "t"
      ⟨"rid1", "20260101_000000", false, HttpOutcome.netFail⟩ ⟨[], [], []⟩ "IMG" rfl).1,
   (C5_upload_failure (LLMService.ofEnv none none) "t"
      ⟨"rid1", "20260101_000000", false, HttpOutcome.netFail⟩ ⟨[], [], []⟩ "IMG" rfl).2.1⟩

/-- C6: the description client yields `None` on a network failure or any
non-200 response (the caller never sees partial text) and yields empty text
when the 200 response's JSON lacks the `output` field; in either case the
orchestrator returns the message "Failed to analyze image." (which contains
the claimed phrase up to letter case) with no id, and the record stays at
status `"uploaded_to_cloud"`. -/
theorem C6_describe_failure_handling :
    (∀ svc : LLMService, svc.analyzeImage HttpOutcome.netFail = none)
    ∧ (∀ (svc : LLMService) (status : Nat) (body : List (String × String)),
        status ≠ 200 → svc.analyzeImage (HttpOutcome.response status body) = none)
    ∧ (∀ (svc : LLMService) (body : List (String × String)),
        lookupKV body "output" = none →
        svc.analyzeImage (HttpOutcome.response 200 body) = some "")
    ∧ (∀ (svc : LLMService) (tempDir : String) (env : PIEnv) (w : World) (img : String),
        env.uploadOk = true →
        (svc.analyzeImage env.llm = none ∨ svc.analyzeImage env.llm = some "") →
        (processImage svc tempDir env w (some img)).2.2 = "Failed to analyze image."
        ∧ containsSub (lowerStr (processImage svc tempDir env w (some img)).2.2)
            "failed to analyze image" = true
        ∧ (processImage svc tempDir env w (some img)).2.1 = none
        ∧ ∃ r, getRequest (processImage svc tempDir env w (some img)).1.rm env.freshId
            = some r ∧ r.status = "uploaded_to_cloud" ∧ r.cloud_path ≠ none) := by
  refine ⟨fun _ => rfl, ?_, ?_, ?_⟩
  · intro svc status body h
    simp [LLMService.analyzeImage, h]
  · intro svc body h
    simp [LLMService.analyzeImage, h]
  · intro svc tempDir env w img hup hfail
    have hrec := getRequest_updateRequest_self
      (updateRequest (createRequest w.rm env.freshId) env.freshId
        { status := some "image_received",
          temp_path := some (some (tempDir ++ "/" ++ (env.timestamp ++ "_" ++ env.freshId ++ ".jpg"))) }).1
      env.freshId
      { status := some "uploaded_to_cloud",
        cloud_path := some (some (env.timestamp ++ "_" ++ env.freshId ++ ".jpg")) }
      _ (getRequest_updateRequest_self (createRequest w.rm env.freshId) env.freshId _
          initRecord (getRequest_createRequest_self w.rm env.freshId))
    have hred : (processImage svc tempDir env w (some img)).2.2 = "Failed to analyze image."
        ∧ (processImage svc tempDir env w (some img)).2.1 = none
        ∧ (processImage svc tempDir env w (some img)).1.rm
          = (updateRequest (updateRequest (createRequest w.rm env.freshId) env.freshId
              { status := some "image_received",
                temp_path := some (some (tempDir ++ "/" ++ (env.timestamp ++ "_" ++ env.freshId ++ ".jpg"))) }).1
              env.freshId
              { status := some "uploaded_to_cloud",
                cloud_path := some (some (env.timestamp ++ "_" ++ env.freshId ++ ".jpg")) }).1 := by
      rcases hfail with hfail | hfail
      · refine ⟨?_, ?_, ?_⟩ <;> simp [processImage, hup, hfail]
      · refine ⟨?_, ?_, ?_⟩ <;> simp [processImage, hup, hfail]
    refine ⟨hred.1, ?_, hred.2.1, ?_⟩
    · rw [hred.1]
      show containsSub (lowerStr "Failed to analyze image.") "failed to analyze image" = true
      decide
    · rw [hred.2.2, hrec]
      exact ⟨_, rfl, rfl, by simp [applyUpdates, initRecord]⟩

/-- C6 witness: a 200 response whose JSON body lacks the `output` field
degrades to empty text, and the orchestrator then reports the failure
message with the record left at `"uploaded_to_cloud"`. -/
theorem C6_describe_failure_handling_witness :
    (LLMService.ofEnv none none).analyzeImage (HttpOutcome.response 200 []) = some ""
    ∧ (processImage (LLMService.ofEnv none none) "t"
        ⟨"rid1", "20260101_000000", true, HttpOutcome.response 200 []⟩
        ⟨[], [], []⟩ (some "IMG")).2.2 = "Failed to analyze image." := by
  have h4 := C6_describe_failure_handling.2.2.2 (LLMService.ofEnv none none) "t"
    ⟨"rid1", "20260101_000000", true, HttpOutcome.response 200 []⟩
    ⟨[], [], []⟩ "IMG" rfl
    (Or.inr (C6_describe_failure_handling.2.2.1 (LLMService.ofEnv none none) [] rfl))
  exact ⟨C6_describe_failure_handling.2.2.1 (LLMService.ofEnv none none) [] rfl, h4.1⟩

/-- C7 counterexample: the claim says the prompt and system-prompt strings
are configurable via the client's construction; but the constructor's whole
surface is the endpoint URL and API key, so two clients constructed with
entirely different parameters still post the identical hardcoded prompt
texts. -/
theorem C7_prompts_not_configurable :
    lookupKV ((LLMService.ofEnv (some "http://a.example/v1") (some "key-one")).buildAnalyzeRequest
        "tmp/a.png" "BYTESA").fields "prompt" = some (FormValue.text fixedPromptText)
    ∧ lookupKV ((LLMService.ofEnv (some "http://b.example/v2") (some "key-two")).buildAnalyzeRequest
        "tmp/b.png" "BYTESB").fields "prompt" = some (FormValue.text fixedPromptText)
    ∧ lookupKV ((LLMService.ofEnv (some "http://a.example/v1") (some "key-one")).buildAnalyzeRequest
        "tmp/a.png" "BYTESA").fields "system_prompt" = some (FormValue.text fixedSystemPromptText)
    ∧ lookupKV ((LLMService.ofEnv (some "http://b.example/v2") (some "key-two")).buildAnalyzeRequest
        "tmp/b.png" "BYTESB").fields "system_prompt" = some (FormValue.text fixedSystemPromptText)
    ∧ LLMService.ofEnv (some "http://a.example/v1") (some "key-one")
      ≠ LLMService.ofEnv (some "http://b.example/v2") (some "key-two") :=
  ⟨rfl, rfl, rfl, rfl, by decide⟩

/-- C7 (amended): every describe request is a multipart form holding
exactly the fields `prompt`, `system_prompt`, `max_tokens` (the string
`"4000"`), `temperature` (the string `"0.5"`) and `images` (the binary
part), with the `X-API-Key` header carrying the configured key; but the
prompt and system-prompt strings are hardcoded constants of
`analyze_image`, not configurable via the client's construction. -/
theorem C7_request_contract (svc : LLMService) (imagePath imageBytes : String) :
    (svc.buildAnalyzeRequest imagePath imageBytes).fields
      = [("prompt", FormValue.text fixedPromptText),
         ("system_prompt", FormValue.text fixedSystemPromptText),
         ("max_tokens", FormValue.text "4000"),
         ("temperature", FormValue.text "0.5"),
         ("images", FormValue.filePart (basename imagePath) "image/png" imageBytes)]
    ∧ (svc.buildAnalyzeRequest imagePath imageBytes).headerApiKey = svc.api_key
    ∧ (svc.buildAnalyzeRequest imagePath imageBytes).url = svc.api_url :=
  ⟨rfl, rfl, rfl⟩

/-- C8: along the tracker snapshots of any `process_image` run (with a
fresh id) and any `save_feedback` run, every step preserves an already-set
`cloud_path` and `llm_description` of every record; with transitivity this
says the two fields are write-once across both flows — only later steps'
other fields (the status) change. -/
theorem C8_write_once_fields :
    (∀ a b c : RM, preservesWriteOnce a b → preservesWriteOnce b c → preservesWriteOnce a c)
    ∧ (∀ (svc : LLMService) (tempDir : String) (env : PIEnv) (w : World) (image : Option String),
        getRequest w.rm env.freshId = none →
        (processImageRMTrace svc tempDir env w image).Chain' preservesWriteOnce)
    ∧ (∀ (env : FBEnv) (w : World) (rid : String) (approved : Bool) (note : String),
        (saveFeedbackRMTrace env w rid approved note).Chain' preservesWriteOnce) := by
  refine ⟨preservesWriteOnce_trans, ?_, ?_⟩
  · intro svc tempDir env w image hfresh
    have h1 := preservesWriteOnce_create w.rm env.freshId hfresh
    have h2 : preservesWriteOnce (createRequest w.rm env.freshId)
        (updateRequest (createRequest w.rm env.freshId) env.freshId
          { status := some "image_received",
            temp_path := some (some (tempDir ++ "/" ++ (env.timestamp ++ "_" ++ env.freshId ++ ".jpg"))) }).1 :=
      preservesWriteOnce_update _ _ _ (Or.inl rfl) (Or.inl rfl)
    have hg2 := getRequest_updateRequest_self (createRequest w.rm env.freshId) env.freshId
      { status := some "image_received",
        temp_path := some (some (tempDir ++ "/" ++ (env.timestamp ++ "_" ++ env.freshId ++ ".jpg"))) }
      initRecord (getRequest_createRequest_self w.rm env.freshId)
    have h3 : preservesWriteOnce
        (updateRequest (createRequest w.rm env.freshId) env.freshId
          { status := some "image_received",
            temp_path := some (some (tempDir ++ "/" ++ (env.timestamp ++ "_" ++ env.freshId ++ ".jpg"))) }).1
        (updateRequest (updateRequest (createRequest w.rm env.freshId) env.freshId
          { status := some "image_received",
            temp_path := some (some (tempDir ++ "/" ++ (env.timestamp ++ "_" ++ env.freshId ++ ".jpg"))) }).1
          env.freshId
          { status := some "uploaded_to_cloud",
            cloud_path := some (some (env.timestamp ++ "_" ++ env.freshId ++ ".jpg")) }).1 := by
      refine preservesWriteOnce_update _ _ _ (Or.inr ?_) (Or.inl rfl)
      intro r hr
      rw [hg2] at hr
      cases hr
      rfl
    have hg3 := getRequest_updateRequest_self _ env.freshId
      { status := some "uploaded_to_cloud",
        cloud_path := some (some (env.timestamp ++ "_" ++ env.freshId ++ ".jpg")) }
      _ hg2
    have h4 : ∀ desc : String, preservesWriteOnce
        (updateRequest (updateRequest (createRequest w.rm env.freshId) env.freshId
          { status := some "image_received",
            temp_path := some (some (tempDir ++ "/" ++ (env.timestamp ++ "_" ++ env.freshId ++ ".jpg"))) }).1
          env.freshId
          { status := some "uploaded_to_cloud",
            cloud_path := some (some (env.timestamp ++ "_" ++ env.freshId ++ ".jpg")) }).1
        (updateRequest (updateRequest (updateRequest (createRequest w.rm env.freshId) env.freshId
          { status := some "image_received",
            temp_path := some (some (tempDir ++ "/" ++ (env.timestamp ++ "_" ++ env.freshId ++ ".jpg"))) }).1
          env.freshId
          { status := some "uploaded_to_cloud",
            cloud_path := some (some (env.timestamp ++ "_" ++ env.freshId ++ ".jpg")) }).1
          env.freshId
          { status := some "analyzed", llm_description := some (some desc) }).1 := by
      intro desc
      refine preservesWriteOnce_update _ _ _ (Or.inl rfl) (Or.inr ?_)
      intro r hr
      rw [hg3] at hr
      cases hr
      rfl
    rcases image with _ | img
    · simp [processImageRMTrace]
    · by_cases hup : env.uploadOk
      · rcases hllm : svc.analyzeImage env.llm with _ | desc
        · simp only [processImageRMTrace, hup, if_true, hllm]
          exact List.Chain'.cons h1 (List.Chain'.cons h2 (List.Chain'.cons h3 (List.chain'_singleton _)))
        · by_cases hdesc : desc = ""
          · simp only [processImageRMTrace, hup, if_true, hllm, hdesc, if_true]
            exact List.Chain'.cons h1 (List.Chain'.cons h2 (List.Chain'.cons h3 (List.chain'_singleton _)))
          · simp only [processImageRMTrace, hup, if_true, hllm, if_neg hdesc]
            exact List.Chain'.cons h1 (List.Chain'.cons h2 (List.Chain'.cons h3
              (List.Chain'.cons (h4 desc) (List.chain'_singleton _))))
      · simp only [processImageRMTrace, if_neg hup]
        exact List.Chain'.cons h1 (List.Chain'.cons h2 (List.chain'_singleton _))
  · intro env w rid approved note
    by_cases hrid : rid = ""
    · simp [saveFeedbackRMTrace, hrid]
    · rcases hget : getRequest w.rm rid with _ | r
      · simp [saveFeedbackRMTrace, hrid, hget]
      · have h1 : preservesWriteOnce w.rm
            (updateRequest w.rm rid
              { status := some "feedback_received", user_feedback := some (some approved),
                user_note := some (some note) }).1 :=
          preservesWriteOnce_update _ _ _ (Or.inl rfl) (Or.inl rfl)
        have h2 := preservesWriteOnce_refl
          (updateRequest w.rm rid
            { status := some "feedback_received", user_feedback := some (some approved),
              user_note := some (some note) }).1
        have h3 : preservesWriteOnce
            (cleanTempFile (updateRequest w.rm rid
              { status := some "feedback_received", user_feedback := some (some approved),
                user_note := some (some note) }).1 w.fs rid).1
            (updateRequest (cleanTempFile (updateRequest w.rm rid
              { status := some "feedback_received", user_feedback := some (some approved),
                user_note := some (some note) }).1 w.fs rid).1 rid
              { status := some "completed" }).1 :=
          preservesWriteOnce_update _ _ _ (Or.inl rfl) (Or.inl rfl)
        by_cases hok : env.metadataOk
        · simp only [saveFeedbackRMTrace, if_neg hrid, hget, hok, if_true]
          refine List.Chain'.cons h1 (List.Chain'.cons ?_ (List.Chain'.cons h3
            (List.chain'_singleton _)))
          rw [cleanTempFile_rm_eq]
          exact h2
        · simp only [saveFeedbackRMTrace, if_neg hrid, hget, hok, if_false]
          exact List.Chain'.cons h1 (List.chain'_singleton _)

/-- C8 witness: the chain property at a concrete full `process_image` run
into an empty tracker. -/
theorem C8_write_once_fields_witness :
    (processImageRMTrace (LLMService.ofEnv none none) "t"
        ⟨"rid1", "20260101_000000", true, HttpOutcome.response 200 [("output", "a cat")]⟩
        ⟨[], [], []⟩ (some "IMG")).Chain' preservesWriteOnce :=
  C8_write_once_fields.2.1 (LLMService.ofEnv none none) "t"
    ⟨"rid1", "20260101_000000", true, HttpOutcome.response 200 [("output", "a cat")]⟩
    ⟨[], [], []⟩ (some "IMG") rfl

/-- C10 witness: after cleaning, the concrete record still reports the old
temp path while the file is gone from disk. -/
theorem C10_clean_keeps_stale_temp_path_witness :
    getRequest (cleanTempFile [("r", { initRecord with temp_path := some "t/y.jpg" })]
        ["t/y.jpg"] "r").1 "r" = some { initRecord with temp_path := some "t/y.jpg" }
    ∧ "t/y.jpg" ∉ (cleanTempFile [("r", { initRecord with temp_path := some "t/y.jpg" })]
        ["t/y.jpg"] "r").2.1 :=
  C10_clean_keeps_stale_temp_path.2
    [("r", { initRecord with temp_path := some "t/y.jpg" })] ["t/y.jpg"] "r"
    { initRecord with temp_path := some "t/y.jpg" } "t/y.jpg"
    (by rfl) (by rfl) (by decide) (by simp)

end DescribeApp
